import Mathlib

/-!
Shallow embedding of the voicemail delivery decision engine from main.go.

External collaborators (the Google Datastore client and the platform HTTP
API) are reified as an explicit environment:
  * identity lookups are a function from phone number to a get result
    (found / not found / storage error), mirroring store.Get;
  * the single pending-voicemail insert performed by one deliverVoicemail
    invocation is a scripted result (storage error, or the assigned key id),
    mirroring store.Put with an incomplete key;
  * the responses of postStream are a scripted list consumed in call order
    (a missing entry stands for a transport failure).
Every code path of deliverVoicemail returns a distinct DeliverResult
constructor; the Go function returns a nil error exactly on the two
"delivered" paths, so result = delivered coincides with err == nil.
The trace also records the pending records actually inserted and the
postStream calls issued, in order.
-/

namespace Voicemail

/-- Result of a datastore point lookup (store.Get): the entity, a not-found
sentinel, or a storage error. The Go code collapses the last two cases. -/
inductive GetResult (α : Type) where
  | found (value : α)
  | notFound
  | storageError
deriving DecidableEq

/-- Identity record (main.go). Account is a datastore key pointer of which
only the numeric ID is ever read; the code dereferences it unconditionally
on the paths that use it, so it is embedded as the ID itself. -/
structure Identity where
  Account : Int
  Available : Bool
  Status : String
deriving DecidableEq

/-- Participant record (main.go). -/
structure Participant where
  Id : Int
deriving DecidableEq

/-- PendingVoicemail record (main.go). -/
structure PendingVoicemail where
  From : String
  To : String
  AudioURL : String
  Delivered : Bool
deriving DecidableEq

/-- Stream record parsed from the platform response (main.go). -/
structure Stream where
  Id : Int
  Others : List Participant
deriving DecidableEq

/-- One invocation of postStream, as issued by deliverVoicemail:
the on_behalf_of account, the stream id argument, and the form fields. -/
structure PostCall where
  onBehalfOf : Int
  streamId : Int
  fields : List (String × String)
deriving DecidableEq

/-- The distinct return paths of deliverVoicemail. The Go function returns
an error value on every path except the two delivered ones; queuedPending
carries the key id assigned by the datastore (reported in the message). -/
inductive DeliverResult where
  | emptyRecipient
  | persistentNonDelivery
  | queueStoreFailed
  | queuedPending (id : Nat)
  | postFailed
  | delivered
deriving DecidableEq

/-- The external world for one deliverVoicemail invocation. -/
structure Env where
  lookup : String → GetResult Identity
  putResult : Except Unit Nat
  postResponses : List (Except Unit Stream)

/-- Result of one deliverVoicemail invocation together with its effects:
the pending records inserted and the postStream calls issued, in order. -/
structure DeliverTrace where
  result : DeliverResult
  puts : List PendingVoicemail
  calls : List PostCall
deriving DecidableEq

/-- getIdentityPair treats both a not-found and a storage error from
store.Get identically: the identity pointer is set to nil. Its own err
return value is always nil in the Go code. -/
def identityOf : GetResult Identity → Option Identity
  | .found i => some i
  | .notFound => none
  | .storageError => none

/-- getIdentityPair (main.go): two independent point lookups; any Get
error, storage errors included, yields an absent identity. -/
def getIdentityPair (env : Env) (a b : String) : Option Identity × Option Identity :=
  (identityOf (env.lookup a), identityOf (env.lookup b))

/-- The guard `toIdentity == nil || toIdentity.Available` from main.go. -/
def identityUnusable : Option Identity → Bool
  | none => true
  | some i => i.Available

/-- Empty sender normalization: `from = "unknownuser"` (main.go). -/
def normFrom (s : String) : String :=
  if s = "" then "unknownuser" else s

/-- The enqueue branch of deliverVoicemail: on a retry, report persistent
non-delivery without touching the store; otherwise insert a new
PendingVoicemail (Delivered is the Go zero value, false) and report the
assigned key id, or report the insert failure. -/
def enqueuePending (env : Env) (f t u : String) (retrying : Bool) : DeliverTrace :=
  if retrying then
    ⟨.persistentNonDelivery, [], []⟩
  else
    match env.putResult with
    | .error _ => ⟨.queueStoreFailed, [], []⟩
    | .ok id => ⟨.queuedPending id, [⟨f, t, u, false⟩], []⟩

/-- Synthesized sender account for the reverse path: the first entry of
stream.Others, or toId for a monologue stream (main.go). -/
def reverseFromId (stream : Stream) (toId : Int) : Int :=
  match stream.Others with
  | p :: _ => p.Id
  | [] => toId

/-- The reverse-creation path of deliverVoicemail: create the stream on
behalf of the recipient with the sender phone number as participant and
reason "voicemail", then append the audio on behalf of the synthesized
sender account. -/
def reverseDeliver (env : Env) (f u : String) (toId : Int) : DeliverTrace :=
  match env.postResponses.getD 0 (.error ()) with
  | .error _ =>
    ⟨.postFailed, [], [⟨toId, 0, [("participant", f), ("reason", "voicemail")]⟩]⟩
  | .ok stream =>
    match env.postResponses.getD 1 (.error ()) with
    | .error _ =>
      ⟨.postFailed, [],
        [⟨toId, 0, [("participant", f), ("reason", "voicemail")]⟩,
         ⟨reverseFromId stream toId, stream.Id, [("audio_url", u)]⟩]⟩
    | .ok _ =>
      ⟨.delivered, [],
        [⟨toId, 0, [("participant", f), ("reason", "voicemail")]⟩,
         ⟨reverseFromId stream toId, stream.Id, [("audio_url", u)]⟩]⟩

/-- The account-to-account path of deliverVoicemail: a single post on
behalf of the sender account, participant set to the recipient account id
rendered in decimal (strconv.FormatInt) and the audio url. -/
def directDeliver (env : Env) (u : String) (fromId toId : Int) : DeliverTrace :=
  match env.postResponses.getD 0 (.error ()) with
  | .error _ =>
    ⟨.postFailed, [], [⟨fromId, 0, [("participant", toString toId), ("audio_url", u)]⟩]⟩
  | .ok _ =>
    ⟨.delivered, [], [⟨fromId, 0, [("participant", toString toId), ("audio_url", u)]⟩]⟩

/-- deliverVoicemail (main.go): empty recipient fails immediately; an
empty sender becomes "unknownuser"; an absent or available recipient
leads to the enqueue branch; a usable sender account posts directly;
otherwise the stream is created in reverse. -/
def deliverVoicemail (env : Env) (fromNumber t u : String) (retrying : Bool) : DeliverTrace :=
  if t = "" then
    ⟨.emptyRecipient, [], []⟩
  else
    match (getIdentityPair env (normFrom fromNumber) t).2 with
    | none => enqueuePending env (normFrom fromNumber) t u retrying
    | some ti =>
      if ti.Available then
        enqueuePending env (normFrom fromNumber) t u retrying
      else
        match (getIdentityPair env (normFrom fromNumber) t).1 with
        | some fi =>
          if fi.Available then
            reverseDeliver env (normFrom fromNumber) u ti.Account
          else
            directDeliver env u fi.Account ti.Account
        | none => reverseDeliver env (normFrom fromNumber) u ti.Account

/-- deliverPendingVoicemail (main.go): retry the delivery; on success
(deliverVoicemail returned a nil error, which happens exactly on the
delivered paths) write the record back under the same key with
Delivered set to true. The second component lists the store writes. -/
def deliverPendingVoicemail (env : Env) (key : Nat) (voicemail : PendingVoicemail) :
    DeliverTrace × List (Nat × PendingVoicemail) :=
  let tr := deliverVoicemail env voicemail.From voicemail.To voicemail.AudioURL true
  if tr.result = .delivered then
    (tr, [(key, { voicemail with Delivered := true })])
  else
    (tr, [])

/-- One step of the undelivered-records iterator during a flush:
end of iteration, a storage error from Next, or a record together with
the state of the external world when its delivery is attempted. -/
inductive IterStep where
  | done
  | fail
  | record (key : Nat) (voicemail : PendingVoicemail) (env : Env)

/-- Observable behavior of one flush: the records whose delivery was
attempted, the mark-delivered writes performed, and how many iteration
errors were logged. -/
structure FlushTrace where
  attempts : List (Nat × PendingVoicemail)
  markPuts : List (Nat × PendingVoicemail)
  iterErrors : Nat
deriving DecidableEq

/-- flushPendingQueue (main.go): loop over the iterator; break on Done,
log and continue on any other iterator error, otherwise attempt the
delivery via deliverPendingVoicemail and keep scanning. -/
def flushPendingQueue : List IterStep → FlushTrace
  | [] => ⟨[], [], 0⟩
  | .done :: _ => ⟨[], [], 0⟩
  | .fail :: rest =>
    let t := flushPendingQueue rest
    ⟨t.attempts, t.markPuts, t.iterErrors + 1⟩
  | .record key voicemail env :: rest =>
    let step := deliverPendingVoicemail env key voicemail
    let t := flushPendingQueue rest
    ⟨(key, voicemail) :: t.attempts, step.2 ++ t.markPuts, t.iterErrors⟩

/-- The scan of path.Ext, on the reversed character list of the path:
walk from the end, stop at a slash with no extension, or return the
suffix from the last dot. acc holds the characters already passed, in
original order. -/
def extFromRev : List Char → List Char → Option (List Char)
  | [], _ => none
  | c :: rest, acc =>
    if c = '/' then none
    else if c = '.' then some ('.' :: acc)
    else extFromRev rest (c :: acc)

/-- path.Ext from the Go standard library: the suffix beginning at the
final dot in the final slash-separated element, empty if there is none. -/
def pathExt (s : String) : String :=
  match extFromRev s.data.reverse [] with
  | some l => ⟨l⟩
  | none => ""

/-- The audio url rewrite in callHandler (main.go): when the extension is
absent or ".wav", drop it and append ".mp3"; the Go byte slice removes
exactly the extension, which is an ASCII suffix in both rewritten cases. -/
def normalizeAudioURL (u : String) : String :=
  if pathExt u = "" ∨ pathExt u = ".wav" then
    ⟨u.data.take (u.data.length - (pathExt u).data.length)⟩ ++ ".mp3"
  else
    u

/-! Helper lemmas. -/

/-- Unfolding lemma for deliverVoicemail when the recipient is non-empty. -/
lemma deliverVoicemail_eq (env : Env) (f t u : String) (r : Bool) (ht : t ≠ "") :
    deliverVoicemail env f t u r =
      match identityOf (env.lookup t) with
      | none => enqueuePending env (normFrom f) t u r
      | some ti =>
        if ti.Available then
          enqueuePending env (normFrom f) t u r
        else
          match identityOf (env.lookup (normFrom f)) with
          | some fi =>
            if fi.Available then
              reverseDeliver env (normFrom f) u ti.Account
            else
              directDeliver env u fi.Account ti.Account
          | none => reverseDeliver env (normFrom f) u ti.Account := by
  unfold deliverVoicemail getIdentityPair
  rw [if_neg ht]

lemma enqueuePending_ok (env : Env) (f t u : String) (id : Nat)
    (h : env.putResult = .ok id) :
    enqueuePending env f t u false = ⟨.queuedPending id, [⟨f, t, u, false⟩], []⟩ := by
  unfold enqueuePending
  rw [h]
  rfl

lemma enqueuePending_err (env : Env) (f t u : String)
    (h : env.putResult = .error ()) :
    enqueuePending env f t u false = ⟨.queueStoreFailed, [], []⟩ := by
  unfold enqueuePending
  rw [h]
  rfl

lemma reverseDeliver_retry_safe (env : Env) (f u : String) (toId : Int) :
    (reverseDeliver env f u toId).puts = []
    ∧ ∀ id, (reverseDeliver env f u toId).result ≠ .queuedPending id := by
  unfold reverseDeliver
  cases h0 : env.postResponses.getD 0 (.error ()) with
  | error e => simp
  | ok st =>
    cases h1 : env.postResponses.getD 1 (.error ()) with
    | error e => simp
    | ok st2 => simp

lemma directDeliver_retry_safe (env : Env) (u : String) (fromId toId : Int) :
    (directDeliver env u fromId toId).puts = []
    ∧ ∀ id, (directDeliver env u fromId toId).result ≠ .queuedPending id := by
  unfold directDeliver
  cases h0 : env.postResponses.getD 0 (.error ()) with
  | error e => simp
  | ok st => simp

lemma enqueuePending_congr (env₁ env₂ : Env) (f t u : String) (r : Bool)
    (h : env₁.putResult = env₂.putResult) :
    enqueuePending env₁ f t u r = enqueuePending env₂ f t u r := by
  unfold enqueuePending
  rw [h]

lemma reverseDeliver_congr (env₁ env₂ : Env) (f u : String) (toId : Int)
    (h : env₁.postResponses = env₂.postResponses) :
    reverseDeliver env₁ f u toId = reverseDeliver env₂ f u toId := by
  unfold reverseDeliver
  rw [h]

lemma directDeliver_congr (env₁ env₂ : Env) (u : String) (fromId toId : Int)
    (h : env₁.postResponses = env₂.postResponses) :
    directDeliver env₁ u fromId toId = directDeliver env₂ u fromId toId := by
  unfold directDeliver
  rw [h]

/-- Concrete environments used to instantiate the theorems below. -/
def envNone : Env := ⟨fun _ => .notFound, .ok 42, []⟩

def envStoreDown : Env := ⟨fun _ => .storageError, .ok 42, []⟩

def envPutErr : Env := ⟨fun _ => .notFound, .error (), []⟩

def envLookupErr : Env := ⟨fun _ => .storageError, .ok 9, []⟩

def envBoth : Env :=
  ⟨fun s => if s = "+15559998888" then .found ⟨7, false, ""⟩ else .found ⟨5, false, ""⟩,
   .ok 1, [.ok ⟨9, []⟩]⟩

def envRev : Env :=
  ⟨fun s => if s = "+15559998888" then .found ⟨7, false, "ok"⟩ else .notFound,
   .ok 1, [.ok ⟨11, [⟨3⟩]⟩, .ok ⟨11, []⟩]⟩

/-! Claim theorems. -/

/-- C7: with an empty recipient, deliverVoicemail fails immediately with
the invalid-request outcome, inserts nothing, issues no post call, and
its behavior does not depend on the environment at all (no lookup, no
store write, no network call can influence it). -/
theorem deliver_empty_recipient (env env₂ : Env) (f u : String) (r : Bool) :
    deliverVoicemail env f "" u r = ⟨.emptyRecipient, [], []⟩
    ∧ deliverVoicemail env f "" u r = deliverVoicemail env₂ f "" u r :=
  ⟨rfl, rfl⟩

/-- C1: with a non-empty sender and recipient, a recipient identity that
is absent or available, no retry, and a successful insert, deliverVoicemail
inserts exactly one PendingVoicemail with that sender, recipient and audio
url and Delivered false, returns the queued-pending outcome carrying the
assigned key id, and issues no conversation post. -/
theorem deliver_unusable_recipient_enqueues
    (env : Env) (f t u : String) (id : Nat)
    (ht : t ≠ "") (hf : f ≠ "")
    (hto : identityUnusable (identityOf (env.lookup t)) = true)
    (hput : env.putResult = .ok id) :
    deliverVoicemail env f t u false =
      ⟨.queuedPending id, [⟨f, t, u, false⟩], []⟩ := by
  rw [deliverVoicemail_eq env f t u false ht]
  have hnf : normFrom f = f := by
    unfold normFrom
    rw [if_neg hf]
  cases h : identityOf (env.lookup t) with
  | none => rw [hnf, enqueuePending_ok env f t u id hput]
  | some ti =>
    rw [h] at hto
    simp only [identityUnusable] at hto
    simp only [hto, if_true]
    rw [hnf, enqueuePending_ok env f t u id hput]

theorem deliver_unusable_recipient_enqueues_instance :
    deliverVoicemail envNone "+15551230000" "+15559998888" "u" false =
      ⟨.queuedPending 42, [⟨"+15551230000", "+15559998888", "u", false⟩], []⟩ :=
  deliver_unusable_recipient_enqueues envNone "+15551230000" "+15559998888" "u" 42
    (by decide) (by decide) rfl rfl

/-- C2: with a recipient identity that is absent or available, a retry
attempt returns the persistent-non-delivery failure with no insert and no
post call; moreover a retry attempt never returns the queued-pending
outcome and never inserts a pending record, whatever the environment. -/
theorem deliver_retry_never_enqueues :
    (∀ (env : Env) (f t u : String), t ≠ "" →
        identityUnusable (identityOf (env.lookup t)) = true →
        deliverVoicemail env f t u true = ⟨.persistentNonDelivery, [], []⟩)
    ∧ (∀ (env : Env) (f t u : String),
        (deliverVoicemail env f t u true).puts = []
        ∧ ∀ id, (deliverVoicemail env f t u true).result ≠ .queuedPending id) := by
  constructor
  · intro env f t u ht hto
    rw [deliverVoicemail_eq env f t u true ht]
    cases h : identityOf (env.lookup t) with
    | none => rfl
    | some ti =>
      rw [h] at hto
      simp only [identityUnusable] at hto
      simp only [hto, if_true]
      rfl
  · intro env f t u
    by_cases ht : t = ""
    · subst ht
      exact ⟨rfl, fun id => by simp [deliverVoicemail]⟩
    · rw [deliverVoicemail_eq env f t u true ht]
      cases h : identityOf (env.lookup t) with
      | none => exact ⟨rfl, fun id => by simp [enqueuePending]⟩
      | some ti =>
        by_cases hav : ti.Available
        · simp only [hav, if_true]
          exact ⟨rfl, fun id => by simp [enqueuePending]⟩
        · simp only [hav, if_false]
          cases hfi : identityOf (env.lookup (normFrom f)) with
          | none => exact reverseDeliver_retry_safe env (normFrom f) u ti.Account
          | some fi =>
            by_cases hfav : fi.Available
            · simp only [hfav, if_true]
              exact reverseDeliver_retry_safe env (normFrom f) u ti.Account
            · simp only [hfav, if_false]
              exact directDeliver_retry_safe env u fi.Account ti.Account

theorem deliver_retry_never_enqueues_instance :
    deliverVoicemail envNone "+15551230000" "+15559998888" "u" true =
      ⟨.persistentNonDelivery, [], []⟩
    ∧ (deliverVoicemail envNone "+15551230000" "+15559998888" "u" true).puts = []
    ∧ (deliverVoicemail envNone "+15551230000" "+15559998888" "u" true).result ≠
        .queuedPending 0 :=
  ⟨deliver_retry_never_enqueues.1 envNone "+15551230000" "+15559998888" "u"
      (by decide) rfl,
   (deliver_retry_never_enqueues.2 envNone "+15551230000" "+15559998888" "u").1,
   (deliver_retry_never_enqueues.2 envNone "+15551230000" "+15559998888" "u").2 0⟩

/-- C3: with a usable recipient identity and an absent or available sender
identity, deliverVoicemail first issues the reverse-creation post on
behalf of the recipient account with participant equal to the sender
phone number and reason "voicemail"; once that post returns a stream, it
issues exactly one audio-append post with that stream id, acting as the
first entry of the participant list, or as the recipient account when the
list is empty (self-voicemail). -/
theorem deliver_reverse_creation
    (env : Env) (f t u : String) (r : Bool) (ti : Identity) (st : Stream)
    (ht : t ≠ "") (hf : f ≠ "")
    (hto : identityOf (env.lookup t) = some ti) (hav : ti.Available = false)
    (hfrom : identityUnusable (identityOf (env.lookup f)) = true)
    (hpost : env.postResponses.getD 0 (.error ()) = .ok st) :
    (deliverVoicemail env f t u r).calls =
      [⟨ti.Account, 0, [("participant", f), ("reason", "voicemail")]⟩,
       ⟨reverseFromId st ti.Account, st.Id, [("audio_url", u)]⟩]
    ∧ (st.Others = [] → reverseFromId st ti.Account = ti.Account)
    ∧ (∀ p rest, st.Others = p :: rest → reverseFromId st ti.Account = p.Id) := by
  have hnf : normFrom f = f := by
    unfold normFrom
    rw [if_neg hf]
  have hcalls : (deliverVoicemail env f t u r).calls =
      [⟨ti.Account, 0, [("participant", f), ("reason", "voicemail")]⟩,
       ⟨reverseFromId st ti.Account, st.Id, [("audio_url", u)]⟩] := by
    rw [deliverVoicemail_eq env f t u r ht, hto]
    simp only [hav, if_false, hnf]
    have hrev : (reverseDeliver env f u ti.Account).calls =
        [⟨ti.Account, 0, [("participant", f), ("reason", "voicemail")]⟩,
         ⟨reverseFromId st ti.Account, st.Id, [("audio_url", u)]⟩] := by
      unfold reverseDeliver
      rw [hpost]
      cases h1 : env.postResponses.getD 1 (.error ()) with
      | error e => rfl
      | ok st2 => rfl
    cases hfi : identityOf (env.lookup f) with
    | none => exact hrev
    | some fi =>
      rw [hfi] at hfrom
      simp only [identityUnusable] at hfrom
      simp only [hfrom, if_true]
      exact hrev
  refine ⟨hcalls, ?_, ?_⟩
  · intro hempty
    unfold reverseFromId
    rw [hempty]
  · intro p rest hcons
    unfold reverseFromId
    rw [hcons]

theorem deliver_reverse_creation_instance :
    (deliverVoicemail envRev "+15551230000" "+15559998888" "u" false).calls =
      [⟨7, 0, [("participant", "+15551230000"), ("reason", "voicemail")]⟩,
       ⟨reverseFromId ⟨11, [⟨3⟩]⟩ 7, 11, [("audio_url", "u")]⟩]
    ∧ ((⟨11, [⟨3⟩]⟩ : Stream).Others = [] → reverseFromId ⟨11, [⟨3⟩]⟩ 7 = 7)
    ∧ (∀ p rest, (⟨11, [⟨3⟩]⟩ : Stream).Others = p :: rest →
        reverseFromId ⟨11, [⟨3⟩]⟩ 7 = p.Id) :=
  deliver_reverse_creation envRev "+15551230000" "+15559998888" "u" false
    ⟨7, false, "ok"⟩ ⟨11, [⟨3⟩]⟩ (by decide) (by decide) rfl rfl rfl rfl

/-- C4: with both identities present and not available, deliverVoicemail
issues exactly one conversation post, acting as the sender account, with
stream id 0, participant set to the recipient account id and audio_url
set to the audio url; it inserts nothing, and returns delivered on poster
success and the post failure outcome on poster failure. -/
theorem deliver_direct_post
    (env : Env) (f t u : String) (r : Bool) (ti fi : Identity)
    (ht : t ≠ "") (hf : f ≠ "")
    (hto : identityOf (env.lookup t) = some ti) (htav : ti.Available = false)
    (hfrom : identityOf (env.lookup f) = some fi) (hfav : fi.Available = false) :
    (deliverVoicemail env f t u r).calls =
      [⟨fi.Account, 0, [("participant", toString ti.Account), ("audio_url", u)]⟩]
    ∧ (deliverVoicemail env f t u r).puts = []
    ∧ (∀ st, env.postResponses.getD 0 (.error ()) = .ok st →
        (deliverVoicemail env f t u r).result = .delivered)
    ∧ (env.postResponses.getD 0 (.error ()) = .error () →
        (deliverVoicemail env f t u r).result = .postFailed) := by
  have hnf : normFrom f = f := by
    unfold normFrom
    rw [if_neg hf]
  have hd : deliverVoicemail env f t u r = directDeliver env u fi.Account ti.Account := by
    rw [deliverVoicemail_eq env f t u r ht, hto, hnf, hfrom]
    simp only [htav, hfav]
    rfl
  rw [hd]
  unfold directDeliver
  cases h0 : env.postResponses.getD 0 (.error ()) with
  | error e =>
    refine ⟨rfl, rfl, ?_, fun _ => rfl⟩
    intro st hst
    exact absurd hst (by simp)
  | ok st =>
    refine ⟨rfl, rfl, fun _ _ => rfl, ?_⟩
    intro hst
    exact absurd hst (by simp)

theorem deliver_direct_post_instance :
    (deliverVoicemail envBoth "+15551230000" "+15559998888" "u" false).calls =
      [⟨5, 0, [("participant", "7"), ("audio_url", "u")]⟩]
    ∧ (deliverVoicemail envBoth "+15551230000" "+15559998888" "u" false).puts = []
    ∧ (deliverVoicemail envBoth "+15551230000" "+15559998888" "u" false).result =
        .delivered :=
  ⟨(deliver_direct_post envBoth "+15551230000" "+15559998888" "u" false
      ⟨7, false, ""⟩ ⟨5, false, ""⟩ (by decide) (by decide) rfl rfl rfl rfl).1,
   (deliver_direct_post envBoth "+15551230000" "+15559998888" "u" false
      ⟨7, false, ""⟩ ⟨5, false, ""⟩ (by decide) (by decide) rfl rfl rfl rfl).2.1,
   (deliver_direct_post envBoth "+15551230000" "+15559998888" "u" false
      ⟨7, false, ""⟩ ⟨5, false, ""⟩ (by decide) (by decide) rfl rfl rfl rfl).2.2.1
     ⟨9, []⟩ rfl⟩

/-- C5 counterexample: a storage error from the iterator is followed by a
record that IS still processed (its delivery is attempted), so the scan
does not stop at the error as the claim states. -/
theorem flush_stops_on_iter_error_cex :
    flushPendingQueue [.fail, .record 7 ⟨"a", "", "u", false⟩ envNone] =
      ⟨[(7, ⟨"a", "", "u", false⟩)], [], 1⟩
    ∧ (flushPendingQueue [.fail, .record 7 ⟨"a", "", "u", false⟩ envNone]).attempts ≠
        [] :=
  ⟨rfl, by simp [flushPendingQueue, deliverPendingVoicemail, deliverVoicemail]⟩

/-- C5 amended: on a storage error from the iterator mid-scan, the flusher
logs it and continues with the next iterator result; the subsequent
records are still processed, and only end-of-iteration stops the scan. -/
theorem flush_logs_and_continues_on_iter_error (rest : List IterStep) :
    flushPendingQueue (.fail :: rest) =
      ⟨(flushPendingQueue rest).attempts, (flushPendingQueue rest).markPuts,
       (flushPendingQueue rest).iterErrors + 1⟩
    ∧ flushPendingQueue (.done :: rest) = ⟨[], [], 0⟩ :=
  ⟨rfl, rfl⟩

/-- C6 counterexample: the recipient lookup hits a storage error, yet
deliverVoicemail silently treats it as an absent identity and returns an
ordinary queued-pending outcome with a record inserted, instead of
propagating a storage error. -/
theorem lookup_storage_error_not_propagated_cex :
    envLookupErr.lookup "+15559998888" = .storageError
    ∧ deliverVoicemail envLookupErr "+15551230000" "+15559998888" "u" false =
        ⟨.queuedPending 9, [⟨"+15551230000", "+15559998888", "u", false⟩], []⟩ :=
  ⟨rfl, rfl⟩

/-- C6 amended: a storage error from the pending-voicemail insert is
propagated to the caller as the store-failure outcome; a storage error
from either identity lookup, however, is never propagated: the engine
only observes lookups through identityOf, which collapses a storage
error into an absent identity, so two environments whose lookups agree
after that collapse produce identical behavior. -/
theorem storage_error_propagation :
    (∀ (env : Env) (f t u : String), t ≠ "" →
        identityUnusable (identityOf (env.lookup t)) = true →
        env.putResult = .error () →
        deliverVoicemail env f t u false = ⟨.queueStoreFailed, [], []⟩)
    ∧ (∀ (env₁ env₂ : Env) (f t u : String) (r : Bool),
        (∀ s, identityOf (env₁.lookup s) = identityOf (env₂.lookup s)) →
        env₁.putResult = env₂.putResult →
        env₁.postResponses = env₂.postResponses →
        deliverVoicemail env₁ f t u r = deliverVoicemail env₂ f t u r) := by
  constructor
  · intro env f t u ht hto hput
    rw [deliverVoicemail_eq env f t u false ht]
    cases h : identityOf (env.lookup t) with
    | none => exact enqueuePending_err env (normFrom f) t u hput
    | some ti =>
      rw [h] at hto
      simp only [identityUnusable] at hto
      simp only [hto, if_true]
      exact enqueuePending_err env (normFrom f) t u hput
  · intro env₁ env₂ f t u r hlook hput hpost
    by_cases ht : t = ""
    · subst ht
      rfl
    · rw [deliverVoicemail_eq env₁ f t u r ht, deliverVoicemail_eq env₂ f t u r ht,
        hlook t, hlook (normFrom f)]
      cases identityOf (env₂.lookup t) with
      | none => exact enqueuePending_congr env₁ env₂ (normFrom f) t u r hput
      | some ti =>
        by_cases hav : ti.Available
        · simp only [hav, if_true]
          exact enqueuePending_congr env₁ env₂ (normFrom f) t u r hput
        · simp only [hav, if_false]
          cases identityOf (env₂.lookup (normFrom f)) with
          | none => exact reverseDeliver_congr env₁ env₂ (normFrom f) u ti.Account hpost
          | some fi =>
            by_cases hfav : fi.Available
            · simp only [hfav, if_true]
              exact reverseDeliver_congr env₁ env₂ (normFrom f) u ti.Account hpost
            · simp only [hfav, if_false]
              exact directDeliver_congr env₁ env₂ u fi.Account ti.Account hpost

theorem storage_error_propagation_instance :
    deliverVoicemail envPutErr "+15551230000" "+15559998888" "u" false =
      ⟨.queueStoreFailed, [], []⟩
    ∧ deliverVoicemail envNone "+15551230000" "+15559998888" "u" false =
        deliverVoicemail envStoreDown "+15551230000" "+15559998888" "u" false :=
  ⟨storage_error_propagation.1 envPutErr "+15551230000" "+15559998888" "u"
      (by decide) rfl rfl,
   storage_error_propagation.2 envNone envStoreDown "+15551230000" "+15559998888" "u"
      false (fun _ => rfl) rfl rfl⟩

/-- C9: a record processed on retry is written back with Delivered true,
its other fields unchanged, exactly when the delivery attempt succeeded;
when the attempt fails, no write is performed at all and the stored
record stays as it was. -/
theorem deliverPending_mark_iff (env : Env) (key : Nat) (v : PendingVoicemail) :
    ((deliverPendingVoicemail env key v).1.result = .delivered →
      (deliverPendingVoicemail env key v).2 = [(key, ⟨v.From, v.To, v.AudioURL, true⟩)])
    ∧ ((deliverPendingVoicemail env key v).1.result ≠ .delivered →
      (deliverPendingVoicemail env key v).2 = []) := by
  have he : deliverPendingVoicemail env key v =
      if (deliverVoicemail env v.From v.To v.AudioURL true).result = .delivered then
        (deliverVoicemail env v.From v.To v.AudioURL true,
         [(key, ⟨v.From, v.To, v.AudioURL, true⟩)])
      else
        (deliverVoicemail env v.From v.To v.AudioURL true, []) := rfl
  rw [he]
  by_cases h : (deliverVoicemail env v.From v.To v.AudioURL true).result = .delivered
  · rw [if_pos h]
    exact ⟨fun _ => rfl, fun hn => absurd h hn⟩
  · rw [if_neg h]
    exact ⟨fun hd => absurd hd h, fun _ => rfl⟩

theorem deliverPending_mark_iff_instance :
    (deliverPendingVoicemail envBoth 3 ⟨"a", "b", "u", false⟩).2 =
      [(3, ⟨"a", "b", "u", true⟩)]
    ∧ (deliverPendingVoicemail envNone 3 ⟨"a", "b", "u", false⟩).2 = [] :=
  ⟨(deliverPending_mark_iff envBoth 3 ⟨"a", "b", "u", false⟩).1 rfl,
   (deliverPending_mark_iff envNone 3 ⟨"a", "b", "u", false⟩).2 (by decide)⟩

/-- The extension computed by the scan is a suffix of the scanned text:
the invariant r.reverse ++ acc = original text is preserved. -/
lemma extFromRev_suffix :
    ∀ (r acc l : List Char), extFromRev r acc = some l →
      ∃ b, r.reverse ++ acc = b ++ l := by
  intro r
  induction r with
  | nil =>
    intro acc l h
    simp [extFromRev] at h
  | cons c rest ih =>
    intro acc l h
    unfold extFromRev at h
    by_cases h1 : c = '/'
    · rw [if_pos h1] at h
      exact absurd h (by simp)
    · rw [if_neg h1] at h
      by_cases h2 : c = '.'
      · rw [if_pos h2] at h
        have hl : ('.' :: acc : List Char) = l := Option.some.inj h
        refine ⟨rest.reverse, ?_⟩
        rw [← hl, h2]
        simp
      · rw [if_neg h2] at h
        obtain ⟨b, hb⟩ := ih (c :: acc) l h
        refine ⟨b, ?_⟩
        rw [List.reverse_cons, List.append_assoc]
        simpa using hb

/-- The extension returned by pathExt is a suffix of the path. -/
lemma pathExt_suffix (u : String) : ∃ b, u.data = b ++ (pathExt u).data := by
  unfold pathExt
  cases h : extFromRev u.data.reverse [] with
  | none => exact ⟨u.data, by simp⟩
  | some l =>
    obtain ⟨b, hb⟩ := extFromRev_suffix u.data.reverse [] l h
    refine ⟨b, ?_⟩
    show u.data = b ++ l
    simpa using hb

lemma take_sub_append (b l : List Char) :
    (b ++ l).take ((b ++ l).length - l.length) = b := by
  rw [List.length_append, Nat.add_sub_cancel]
  exact List.take_left b l

/-- Appending ".mp3" always yields the extension ".mp3", whatever the
base: the scan meets the final dot before any slash. -/
lemma pathExt_append_mp3 (s : String) : pathExt (s ++ ".mp3") = ".mp3" := by
  unfold pathExt
  have hd : (s ++ ".mp3").data.reverse = '3' :: 'p' :: 'm' :: '.' :: s.data.reverse := by
    rw [String.data_append]
    simp [List.reverse_append]
  rw [hd]
  have he : extFromRev ('3' :: 'p' :: 'm' :: '.' :: s.data.reverse) [] =
      some ('.' :: 'm' :: 'p' :: '3' :: []) := rfl
  rw [he]

/-- When the extension is neither absent nor ".wav", the url is kept. -/
lemma normalizeAudioURL_other (v : String)
    (h1 : pathExt v ≠ "") (h2 : pathExt v ≠ ".wav") :
    normalizeAudioURL v = v := by
  unfold normalizeAudioURL
  rw [if_neg (by tauto)]

/-- C8: when the extension of the audio url is absent or ".wav", the url
splits as base ++ extension and the rewrite produces base ++ ".mp3"
(same base path, compressed extension); any other extension leaves the
url unchanged. -/
theorem normalizeAudioURL_spec (u : String) :
    ((pathExt u = "" ∨ pathExt u = ".wav") →
      ∃ b, u.data = b ++ (pathExt u).data
        ∧ (normalizeAudioURL u).data = b ++ ('.' :: 'm' :: 'p' :: '3' :: []))
    ∧ (pathExt u ≠ "" → pathExt u ≠ ".wav" → normalizeAudioURL u = u) := by
  constructor
  · intro h
    obtain ⟨b, hb⟩ := pathExt_suffix u
    refine ⟨b, hb, ?_⟩
    unfold normalizeAudioURL
    rw [if_pos h]
    have htake : u.data.take (u.data.length - (pathExt u).data.length) = b := by
      rw [hb]
      exact take_sub_append b (pathExt u).data
    rw [String.data_append, htake]
  · exact normalizeAudioURL_other u

theorem normalizeAudioURL_spec_instance :
    (∃ b, ("http://x/rec123" : String).data = b ++ (pathExt "http://x/rec123").data
      ∧ (normalizeAudioURL "http://x/rec123").data = b ++ ('.' :: 'm' :: 'p' :: '3' :: []))
    ∧ normalizeAudioURL "a/b.ogg" = "a/b.ogg" :=
  ⟨(normalizeAudioURL_spec "http://x/rec123").1 (Or.inl (by decide)),
   (normalizeAudioURL_spec "a/b.ogg").2 (by decide) (by decide)⟩

/-- C10: the audio url rewrite is idempotent: a rewritten url ends in
".mp3", which is neither the absent extension nor ".wav", so a second
application changes nothing; an untouched url is untouched again. -/
theorem normalizeAudioURL_idempotent (u : String) :
    normalizeAudioURL (normalizeAudioURL u) = normalizeAudioURL u := by
  by_cases h : pathExt u = "" ∨ pathExt u = ".wav"
  · have h1 : normalizeAudioURL u =
        (⟨u.data.take (u.data.length - (pathExt u).data.length)⟩ : String) ++ ".mp3" := by
      unfold normalizeAudioURL
      rw [if_pos h]
    have h2 : pathExt (normalizeAudioURL u) = ".mp3" := by
      rw [h1]
      exact pathExt_append_mp3 _
    refine normalizeAudioURL_other _ ?_ ?_ <;> rw [h2] <;> decide
  · push_neg at h
    have hu : normalizeAudioURL u = u := normalizeAudioURL_other u h.1 h.2
    rw [hu]
    exact hu

end Voicemail
